import Mathlib

/-!
Verification of the VIBE-Eyes pipeline (brainwavecollective/vibe-eyes).

The Python source works on 5-component numpy float vectors (Valence, Arousal,
Dominance, Complexity, Coherence).  We embed these as `Fin 5 → ℚ`: the claims
under scrutiny are exact arithmetic identities and inequalities, which the
rational embedding captures faithfully (every literal appearing in the source
is a decimal, hence a rational).

* `src/vibe_eyes/blender.py` — the Attack–Hold–Decay blender (`VIBEBlender`).
  `time.time()` reads become an explicit `now : ℚ` argument.
* `src/vibe_eyes/amplifier.py` — radial amplification and cinematic snap
  (`CinematicAmplifier`).  The exemplar set is loaded from a dataset at
  runtime, so definitions are parametrised by the exemplar list.
* `src/vibe_eyes/server.py` — settle detection, the decay-loop dispatch
  coordination, and the slow-baseline trigger.
* `src/vibe_eyes/ollama_anchor.py` — validation of the slow estimator result.
-/

/-- 5-component VIBE vector (Valence, Arousal, Dominance, Complexity,
Coherence), embedded over ℚ. -/
def Vec5 : Type := Fin 5 → ℚ

instance : DecidableEq Vec5 := fun v w =>
  decidable_of_iff (∀ i, v i = w i) (by
    constructor
    · intro h; funext i; exact h i
    · intro h i; rw [h])

/-- `np.clip(x, 0, 1)` on a scalar. -/
def clip01 (x : ℚ) : ℚ := min (max x 0) 1

/-- `np.clip` applied componentwise to a 5-vector. -/
def clipVec (v : Vec5) : Vec5 := fun i => clip01 (v i)

/-- Componentwise membership of a vector in `[0, 1]^5`. -/
def InUnit (v : Vec5) : Prop := ∀ i, 0 ≤ v i ∧ v i ≤ 1

instance (v : Vec5) : Decidable (InUnit v) := by
  unfold InUnit; infer_instance

/-! ## VIBEBlender (src/vibe_eyes/blender.py) -/

/-- `VIBEBlender.DEFAULT_INFLUENCE = 0.22`. -/
def DEFAULT_INFLUENCE : ℚ := 22/100

/-- `VIBEBlender.BASELINE_INFLUENCE = 0.70`. -/
def BASELINE_INFLUENCE : ℚ := 70/100

/-- `VIBEBlender.HOLD_SECONDS = 0.8`. -/
def HOLD_SECONDS : ℚ := 8/10

/-- `VIBEBlender.DECAY_RATE = 0.06`. -/
def DECAY_RATE : ℚ := 6/100

/-- `VIBEBlender.DWELL_SECONDS = 1.2`. -/
def DWELL_SECONDS : ℚ := 12/10

/-- The mutable fields of `VIBEBlender`. -/
structure BlenderState where
  baseline : Vec5
  current : Vec5
  hold_until : ℚ
  last_baseline_update : ℚ
  dwell_until : ℚ
deriving DecidableEq

/-- `VIBEBlender.__init__` (`blender.py` lines 23–28); `t0` stands for the
`time.time()` read stored into `last_baseline_update`. -/
def initBlender (t0 : ℚ) : BlenderState :=
  { baseline := ![1/2, 1/2, 1/2, 1/2, 8/10]
    current := ![1/2, 1/2, 1/2, 1/2, 8/10]
    hold_until := 0
    last_baseline_update := t0
    dwell_until := 0 }

/-- `VIBEBlender.apply_burst` (`blender.py` lines 31–45).  `now` is the
`time.time()` read; `influence = none` models the Python default `None`,
which falls back to `DEFAULT_INFLUENCE`. -/
def apply_burst (now : ℚ) (burst : Vec5) (influence : Option ℚ)
    (s : BlenderState) : BlenderState :=
  let current := burst
  let dwell_until := now + DWELL_SECONDS
  let hold_until := dwell_until + HOLD_SECONDS
  let alpha := influence.getD DEFAULT_INFLUENCE
  let baseline := clipVec (fun i => s.baseline i + (current i - s.baseline i) * alpha)
  { baseline := baseline
    current := current
    hold_until := hold_until
    last_baseline_update := s.last_baseline_update
    dwell_until := dwell_until }

/-- `VIBEBlender.apply_baseline` (`blender.py` lines 48–51): a burst with
`BASELINE_INFLUENCE`, then `last_baseline_update` is refreshed. -/
def apply_baseline (now : ℚ) (new_baseline : Vec5) (s : BlenderState) :
    BlenderState :=
  { apply_burst now new_baseline (some BASELINE_INFLUENCE) s with
    last_baseline_update := now }

/-- `VIBEBlender.tick` (`blender.py` lines 54–63): returns the updated state
and the vector the Python method returns. -/
def tick (now : ℚ) (s : BlenderState) : BlenderState × Vec5 :=
  if now < s.hold_until then (s, s.current)
  else
    let current := fun i => s.current i + (s.baseline i - s.current i) * DECAY_RATE
    ({ s with current := current }, current)

/-- One public blender operation, with its `time.time()` read made explicit. -/
inductive BlenderOp where
  | burst (now : ℚ) (v : Vec5) (influence : Option ℚ)
  | anchor (now : ℚ) (v : Vec5)
  | step (now : ℚ)

/-- Apply one operation to a blender state (the `tick` return value is
discarded; only the state matters for the invariant). -/
def applyOp (op : BlenderOp) (s : BlenderState) : BlenderState :=
  match op with
  | .burst now v influence => apply_burst now v influence s
  | .anchor now v => apply_baseline now v s
  | .step now => (tick now s).1

/-- Run a sequence of operations from a state. -/
def runOps (ops : List BlenderOp) (s : BlenderState) : BlenderState :=
  ops.foldl (fun s op => applyOp op s) s

/-- The vector argument carried by an operation lies in `[0,1]^5`
(`tick` carries none). -/
def opVecInUnit (op : BlenderOp) : Prop :=
  match op with
  | .burst _ v _ => InUnit v
  | .anchor _ v => InUnit v
  | .step _ => True

/-- Run a sequence of ticks, keeping only the state. -/
def runTicks (ts : List ℚ) (s : BlenderState) : BlenderState :=
  ts.foldl (fun s t => (tick t s).1) s

/-! ## Basic lemmas about the blender -/

lemma clip01_nonneg (x : ℚ) : 0 ≤ clip01 x := by
  unfold clip01
  rcases le_total x 0 with h | h
  · rw [max_eq_right h]; exact le_min le_rfl zero_le_one
  · exact le_min (le_max_of_le_left h) zero_le_one

lemma clip01_le_one (x : ℚ) : clip01 x ≤ 1 := min_le_right _ _

lemma clip01_eq_self {x : ℚ} (h0 : 0 ≤ x) (h1 : x ≤ 1) : clip01 x = x := by
  unfold clip01
  rw [max_eq_left h0, min_eq_left h1]

lemma clipVec_inUnit (v : Vec5) : InUnit (clipVec v) := by
  intro i
  exact ⟨clip01_nonneg _, clip01_le_one _⟩

lemma tick_of_hold (now : ℚ) (s : BlenderState) (h : now < s.hold_until) :
    tick now s = (s, s.current) := by
  unfold tick
  rw [if_pos h]

lemma tick_of_decay (now : ℚ) (s : BlenderState) (h : s.hold_until ≤ now) :
    tick now s =
      ({ s with current := fun i => s.current i + (s.baseline i - s.current i) * DECAY_RATE },
       fun i => s.current i + (s.baseline i - s.current i) * DECAY_RATE) := by
  unfold tick
  rw [if_neg (not_lt.mpr h)]

lemma tick_settled (now : ℚ) (s : BlenderState) (h : s.current = s.baseline) :
    tick now s = (s, s.current) := by
  rcases lt_or_le now s.hold_until with hlt | hle
  · exact tick_of_hold now s hlt
  · rw [tick_of_decay now s hle]
    have hc : (fun i => s.current i + (s.baseline i - s.current i) * DECAY_RATE) = s.current := by
      funext i
      rw [h]
      ring
    rw [hc]

lemma runTicks_settled (ts : List ℚ) (s : BlenderState) (h : s.current = s.baseline) :
    runTicks ts s = s := by
  induction ts with
  | nil => rfl
  | cons t ts ih =>
      unfold runTicks
      rw [List.foldl_cons, tick_settled t s h]
      exact ih

/-- C10: At construction, the blender initializes baseline and current both to
exactly (0.5, 0.5, 0.5, 0.5, 0.8) — the Coherence resting point is 0.8, not
0.5 — with hold_until = dwell_until = 0, so the system starts already settled
(current == baseline), and every tick() before the first burst returns
(0.5, 0.5, 0.5, 0.5, 0.8) with the state unchanged. -/
theorem C10_initial_state :
    ∀ t0 : ℚ,
      ((initBlender t0).baseline = (initBlender t0).current
        ∧ (initBlender t0).current 0 = 1/2 ∧ (initBlender t0).current 1 = 1/2
        ∧ (initBlender t0).current 2 = 1/2 ∧ (initBlender t0).current 3 = 1/2
        ∧ (initBlender t0).current 4 = 8/10
        ∧ (initBlender t0).hold_until = 0 ∧ (initBlender t0).dwell_until = 0)
      ∧ (∀ now : ℚ, tick now (initBlender t0) = (initBlender t0, (initBlender t0).current))
      ∧ (∀ ts : List ℚ, runTicks ts (initBlender t0) = initBlender t0) := by
  intro t0
  have hsettled : (initBlender t0).current = (initBlender t0).baseline := rfl
  refine ⟨⟨rfl, rfl, rfl, rfl, rfl, rfl, rfl, rfl⟩, ?_, ?_⟩
  · intro now
    exact tick_settled now _ hsettled
  · intro ts
    exact runTicks_settled ts _ hsettled

/-- A blender state whose baseline and current are `[0.5]*5`, used for the
burst scenario of the spec. -/
def halfState : BlenderState :=
  { baseline := fun _ => 1/2
    current := fun _ => 1/2
    hold_until := 0
    last_baseline_update := 0
    dwell_until := 0 }

/-- C2 counterexample: `apply_burst(v, influence=1.0)` does NOT make
`baseline == v` exactly for every 5-vector: with `v = [2]*5` the post-update
clip leaves `baseline[0] = 1 ≠ 2` (while `current` does become `v`). -/
theorem C2_counterexample :
    (apply_burst 0 (fun _ => 2) (some 1) (initBlender 0)).current = (fun _ => (2:ℚ))
    ∧ (apply_burst 0 (fun _ => 2) (some 1) (initBlender 0)).baseline 0
        ≠ (fun _ => (2:ℚ)) 0 := by
  constructor
  · rfl
  · show clip01 _ ≠ 2
    norm_num [clip01, initBlender, Matrix.cons_val_zero]

/-- C2 (amended): `apply_burst(v, influence)` sets `current` to exactly `v`
(full immediate replacement) and `baseline` to
`clip(baseline + influence*(v - baseline), 0, 1)`; `apply_burst(v, 1.0)` makes
`current == v` and `baseline == v` exactly PROVIDED `v ∈ [0,1]^5` (otherwise
the clip truncates the baseline); from `baseline = [0.5]*5`, a burst
`v = [0.9, 0.8, 0.2, 0.5, 0.8]` at the default influence (0.22) makes the
baseline exactly `[0.588, 0.566, 0.434, 0.5, 0.566]`. -/
theorem C2_burst_semantics :
    (∀ (now : ℚ) (v : Vec5) (alphaOpt : Option ℚ) (s : BlenderState),
      (apply_burst now v alphaOpt s).current = v
      ∧ (apply_burst now v alphaOpt s).baseline
          = clipVec (fun i =>
              s.baseline i + (alphaOpt.getD DEFAULT_INFLUENCE) * (v i - s.baseline i)))
    ∧ (∀ (now : ℚ) (v : Vec5) (s : BlenderState),
        InUnit v → (apply_burst now v (some 1) s).baseline = v)
    ∧ (∀ i, (apply_burst 0 ![9/10, 8/10, 2/10, 1/2, 8/10] none halfState).baseline i
          = (![588/1000, 566/1000, 434/1000, 1/2, 566/1000] : Vec5) i) := by
  refine ⟨?_, ?_, ?_⟩
  · intro now v alphaOpt s
    refine ⟨rfl, ?_⟩
    show clipVec _ = clipVec _
    unfold clipVec
    funext i
    congr 1
    ring
  · intro now v s hv
    show clipVec _ = v
    funext i
    show clip01 (s.baseline i + (v i - s.baseline i) * (Option.getD (some 1) _)) = v i
    have h1 : s.baseline i + (v i - s.baseline i) * (Option.getD (some 1) DEFAULT_INFLUENCE)
        = v i := by
      show s.baseline i + (v i - s.baseline i) * 1 = v i
      ring
    rw [h1]
    exact clip01_eq_self (hv i).1 (hv i).2
  · intro i
    fin_cases i <;>
      simp [apply_burst, clipVec, clip01, halfState, DEFAULT_INFLUENCE, Option.getD] <;>
      norm_num

/-- Witness for C2: a concrete in-range vector, at influence 1.0, becomes the
baseline exactly. -/
theorem C2_burst_semantics_witness :
    InUnit (![3/4, 1/4, 1/2, 0, 1] : Vec5)
    ∧ (apply_burst 0 ![3/4, 1/4, 1/2, 0, 1] (some 1) (initBlender 0)).baseline
        = ![3/4, 1/4, 1/2, 0, 1] := by
  have hv : InUnit (![3/4, 1/4, 1/2, 0, 1] : Vec5) := by
    intro i
    fin_cases i <;> norm_num
  exact ⟨hv, C2_burst_semantics.2.1 0 _ _ hv⟩

lemma apply_burst_hold (now : ℚ) (v : Vec5) (alphaOpt : Option ℚ) (s : BlenderState) :
    (apply_burst now v alphaOpt s).hold_until = now + DWELL_SECONDS + HOLD_SECONDS := rfl

lemma runTicks_before_hold (ts : List ℚ) (s : BlenderState)
    (h : ∀ t ∈ ts, t < s.hold_until) : runTicks ts s = s := by
  induction ts with
  | nil => rfl
  | cons t ts ih =>
      unfold runTicks
      rw [List.foldl_cons, show (tick t s).1 = s by rw [tick_of_hold t s (h t (by simp))]]
      exact ih fun u hu => h u (by simp [hu])

/-- C3: a tick at a time strictly before hold_until returns current and
mutates nothing; consequently, between a burst at time t0 and the expiry of
the hold_until it sets (t0 + DWELL_SECONDS + HOLD_SECONDS = t0 + 2.0),
current remains exactly the burst value with no decay applied. -/
theorem C3_hold_plateau :
    (∀ (now : ℚ) (s : BlenderState), now < s.hold_until → tick now s = (s, s.current))
    ∧ (∀ (t0 : ℚ) (v : Vec5) (alphaOpt : Option ℚ) (s : BlenderState) (ts : List ℚ),
        (∀ t ∈ ts, t < t0 + DWELL_SECONDS + HOLD_SECONDS) →
        runTicks ts (apply_burst t0 v alphaOpt s) = apply_burst t0 v alphaOpt s
        ∧ (runTicks ts (apply_burst t0 v alphaOpt s)).current = v) := by
  constructor
  · exact tick_of_hold
  · intro t0 v alphaOpt s ts hts
    have hrun : runTicks ts (apply_burst t0 v alphaOpt s) = apply_burst t0 v alphaOpt s :=
      runTicks_before_hold ts _ (by rw [apply_burst_hold]; exact hts)
    exact ⟨hrun, by rw [hrun]; rfl⟩

/-- Witness for C3: a tick at time 1, inside the window `[0, 2)` opened by a
burst at time 0, returns the burst value without mutation; two ticks at
times 1.0 and 1.9 leave the burst value in place. -/
theorem C3_hold_plateau_witness :
    ((1:ℚ) < (apply_burst 0 (fun _ => 9/10) none (initBlender 0)).hold_until
      ∧ tick 1 (apply_burst 0 (fun _ => 9/10) none (initBlender 0))
          = (apply_burst 0 (fun _ => 9/10) none (initBlender 0),
             (apply_burst 0 (fun _ => 9/10) none (initBlender 0)).current))
    ∧ ((∀ t ∈ [(1:ℚ), 19/10], t < 0 + DWELL_SECONDS + HOLD_SECONDS)
      ∧ (runTicks [(1:ℚ), 19/10]
          (apply_burst 0 (fun _ => 9/10) none (initBlender 0))).current = fun _ => 9/10) := by
  have h1 : (1:ℚ) < (apply_burst 0 (fun _ => 9/10) none (initBlender 0)).hold_until := by
    rw [apply_burst_hold]
    norm_num [DWELL_SECONDS, HOLD_SECONDS]
  have hts : ∀ t ∈ [(1:ℚ), 19/10], t < 0 + DWELL_SECONDS + HOLD_SECONDS := by
    intro t ht
    simp only [List.mem_cons, List.not_mem_nil, or_false] at ht
    rcases ht with rfl | rfl <;> norm_num [DWELL_SECONDS, HOLD_SECONDS]
  exact ⟨⟨h1, C3_hold_plateau.1 1 _ h1⟩,
    ⟨hts, (C3_hold_plateau.2 0 (fun _ => 9/10) none (initBlender 0) [1, 19/10] hts).2⟩⟩

/-- C4: once the hold window has expired (now ≥ hold_until), a tick applies
the recurrence `c' = c + 0.06*(b - c)` componentwise with baseline untouched;
the distance to baseline shrinks by the factor 0.94 (strictly when not yet
converged), the new value stays between the old value and the baseline (never
overshoots), and the returned value equals the old one iff that component has
already converged to baseline. -/
theorem C4_decay_recurrence :
    ∀ (now : ℚ) (s : BlenderState), s.hold_until ≤ now →
      ((tick now s).1.current
          = fun i => s.current i + DECAY_RATE * (s.baseline i - s.current i))
      ∧ (tick now s).1.baseline = s.baseline
      ∧ (tick now s).2 = (tick now s).1.current
      ∧ (∀ i, |(tick now s).1.current i - s.baseline i|
            = (94/100) * |s.current i - s.baseline i|)
      ∧ (∀ i, s.current i ≠ s.baseline i →
            |(tick now s).1.current i - s.baseline i| < |s.current i - s.baseline i|)
      ∧ (∀ i, s.baseline i ≤ s.current i →
            s.baseline i ≤ (tick now s).1.current i ∧ (tick now s).1.current i ≤ s.current i)
      ∧ (∀ i, s.current i ≤ s.baseline i →
            s.current i ≤ (tick now s).1.current i ∧ (tick now s).1.current i ≤ s.baseline i)
      ∧ (∀ i, (tick now s).1.current i = s.current i ↔ s.current i = s.baseline i) := by
  intro now s h
  rw [tick_of_decay now s h]
  have hrate : DECAY_RATE = 6/100 := rfl
  refine ⟨by funext i; rw [hrate]; ring, rfl, rfl, ?_, ?_, ?_, ?_, ?_⟩
  · intro i
    rw [hrate]
    have key : s.current i + (s.baseline i - s.current i) * (6/100) - s.baseline i
        = (94/100) * (s.current i - s.baseline i) := by ring
    show |s.current i + (s.baseline i - s.current i) * (6/100) - s.baseline i|
        = (94/100) * |s.current i - s.baseline i|
    rw [key, abs_mul]
    norm_num
  · intro i hne
    rw [hrate]
    show |s.current i + (s.baseline i - s.current i) * (6/100) - s.baseline i|
        < |s.current i - s.baseline i|
    have key : s.current i + (s.baseline i - s.current i) * (6/100) - s.baseline i
        = (94/100) * (s.current i - s.baseline i) := by ring
    rw [key, abs_mul]
    have hpos : 0 < |s.current i - s.baseline i| := abs_pos.mpr (sub_ne_zero.mpr hne)
    have h94 : |(94/100 : ℚ)| = 94/100 := by norm_num
    rw [h94]
    nlinarith
  · intro i hle
    rw [hrate]
    show s.baseline i ≤ s.current i + (s.baseline i - s.current i) * (6/100)
        ∧ s.current i + (s.baseline i - s.current i) * (6/100) ≤ s.current i
    constructor <;> nlinarith [hle]
  · intro i hle
    rw [hrate]
    show s.current i ≤ s.current i + (s.baseline i - s.current i) * (6/100)
        ∧ s.current i + (s.baseline i - s.current i) * (6/100) ≤ s.baseline i
    constructor <;> nlinarith [hle]
  · intro i
    rw [hrate]
    show s.current i + (s.baseline i - s.current i) * (6/100) = s.current i
        ↔ s.current i = s.baseline i
    constructor
    · intro heq
      nlinarith [heq]
    · intro heq
      rw [heq]
      ring

lemma burst_baseline_inUnit (now : ℚ) (v : Vec5) (alphaOpt : Option ℚ)
    (s : BlenderState) : InUnit (apply_burst now v alphaOpt s).baseline :=
  clipVec_inUnit _

lemma tick_preserves_inUnit (now : ℚ) (s : BlenderState)
    (hb : InUnit s.baseline) (hc : InUnit s.current) :
    InUnit (tick now s).1.baseline ∧ InUnit (tick now s).1.current := by
  rcases lt_or_le now s.hold_until with hlt | hle
  · rw [tick_of_hold now s hlt]
    exact ⟨hb, hc⟩
  · rw [tick_of_decay now s hle]
    refine ⟨hb, fun i => ?_⟩
    have hr : DECAY_RATE = 6/100 := rfl
    have h1 := (hb i).1
    have h2 := (hb i).2
    have h3 := (hc i).1
    have h4 := (hc i).2
    rw [hr]
    constructor <;> [nlinarith; nlinarith]

lemma applyOp_preserves_inUnit (op : BlenderOp) (s : BlenderState)
    (hop : opVecInUnit op) (hb : InUnit s.baseline) (hc : InUnit s.current) :
    InUnit (applyOp op s).baseline ∧ InUnit (applyOp op s).current := by
  cases op with
  | burst now v influence => exact ⟨burst_baseline_inUnit now v influence s, hop⟩
  | anchor now v => exact ⟨burst_baseline_inUnit now v (some BASELINE_INFLUENCE) s, hop⟩
  | step now => exact tick_preserves_inUnit now s hb hc

lemma runOps_preserves_inUnit (ops : List BlenderOp) (s : BlenderState)
    (hops : ∀ op ∈ ops, opVecInUnit op) (hb : InUnit s.baseline)
    (hc : InUnit s.current) :
    InUnit (runOps ops s).baseline ∧ InUnit (runOps ops s).current := by
  induction ops generalizing s with
  | nil => exact ⟨hb, hc⟩
  | cons op ops ih =>
      unfold runOps
      rw [List.foldl_cons]
      have hstep := applyOp_preserves_inUnit op s (hops op (by simp)) hb hc
      exact ih _ (fun u hu => hops u (by simp [hu])) hstep.1 hstep.2

lemma initBlender_inUnit (t0 : ℚ) :
    InUnit (initBlender t0).baseline ∧ InUnit (initBlender t0).current := by
  constructor <;> · intro i; fin_cases i <;> norm_num [initBlender]

/-- C1 counterexample: `current` is NOT defensively clamped.  A single
`apply_burst` whose vector is the out-of-range `[2]*5` drives `current[0]`
to 2, outside `[0,1]` — the claimed invariant fails for arbitrary finite
arguments. -/
theorem C1_counterexample :
    (runOps [BlenderOp.burst 0 (fun _ => 2) none] (initBlender 0)).current 0 = 2
    ∧ ¬ InUnit (runOps [BlenderOp.burst 0 (fun _ => 2) none] (initBlender 0)).current := by
  refine ⟨rfl, fun h => ?_⟩
  have h0 := (h 0).2
  norm_num [runOps, applyOp, apply_burst] at h0

/-- C1 (amended): `baseline` is clamped to `[0,1]` after every update, so it
stays in `[0,1]^5` in every reachable state for arbitrary finite arguments;
`current`, however, is never clamped (a burst installs the raw vector), so
the full invariant `current, baseline ∈ [0,1]^5` holds in every reachable
state only under the restriction that every burst/baseline vector passed in
lies in `[0,1]^5`. -/
theorem C1_reachable_invariant :
    (∀ (ops : List BlenderOp) (t0 : ℚ),
        InUnit (runOps ops (initBlender t0)).baseline)
    ∧ (∀ (ops : List BlenderOp) (t0 : ℚ),
        (∀ op ∈ ops, opVecInUnit op) →
        InUnit (runOps ops (initBlender t0)).baseline
        ∧ InUnit (runOps ops (initBlender t0)).current) := by
  constructor
  · intro ops t0
    induction ops using List.reverseRecOn with
    | nil => exact (initBlender_inUnit t0).1
    | append_singleton ops op ih =>
        unfold runOps at ih ⊢
        rw [List.foldl_append, List.foldl_cons, List.foldl_nil]
        cases op with
        | burst now v influence => exact burst_baseline_inUnit now v influence _
        | anchor now v => exact burst_baseline_inUnit now v (some BASELINE_INFLUENCE) _
        | step now =>
            show InUnit (tick now _).1.baseline
            rcases lt_or_le now (List.foldl (fun s op => applyOp op s) (initBlender t0) ops).hold_until
              with hlt | hle
            · rw [tick_of_hold _ _ hlt]; exact ih
            · rw [tick_of_decay _ _ hle]; exact ih
  · intro ops t0 hops
    exact runOps_preserves_inUnit ops _ hops (initBlender_inUnit t0).1 (initBlender_inUnit t0).2

/-- Witness for C1: a burst with an in-range vector followed by a tick keeps
both current and baseline inside the unit box. -/
theorem C1_reachable_invariant_witness :
    (∀ op ∈ [BlenderOp.burst 0 (fun _ => 3/4) none, BlenderOp.step 1], opVecInUnit op)
    ∧ InUnit (runOps [BlenderOp.burst 0 (fun _ => 3/4) none, BlenderOp.step 1]
        (initBlender 0)).current := by
  have hops : ∀ op ∈ [BlenderOp.burst 0 (fun _ => 3/4) none, BlenderOp.step 1],
      opVecInUnit op := by
    intro op hop
    simp only [List.mem_cons, List.not_mem_nil, or_false] at hop
    rcases hop with rfl | rfl
    · intro i; norm_num
    · trivial
  exact ⟨hops, (C1_reachable_invariant.2 _ 0 hops).2⟩

/-- Concrete state for the decay scenario of the spec: current 0.9, baseline
0.5, hold window already expired. -/
def decayDemoState : BlenderState :=
  { baseline := fun _ => 1/2
    current := fun _ => 9/10
    hold_until := 0
    last_baseline_update := 0
    dwell_until := 0 }

/-- Witness for C4: one tick from current 0.9 toward baseline 0.5 yields
exactly 0.876. -/
theorem C4_decay_recurrence_witness :
    decayDemoState.hold_until ≤ 1
    ∧ (tick 1 decayDemoState).1.current 0 = 876/1000 := by
  have h : decayDemoState.hold_until ≤ 1 := by norm_num [decayDemoState]
  have hc := (C4_decay_recurrence 1 decayDemoState h).1
  refine ⟨h, ?_⟩
  rw [hc]
  norm_num [decayDemoState, DECAY_RATE]

/-! ## Settle detection (src/vibe_eyes/server.py, `_has_settled_to_baseline`) -/

/-- `_has_settled_to_baseline` (`server.py` lines 95–97):
`np.all(np.abs(current - baseline) < threshold)`; the Python default
threshold is 0.02. -/
def hasSettledToBaseline (s : BlenderState) (threshold : ℚ) : Prop :=
  ∀ i, |s.current i - s.baseline i| < threshold

instance (s : BlenderState) (threshold : ℚ) :
    Decidable (hasSettledToBaseline s threshold) := by
  unfold hasSettledToBaseline; infer_instance

/-- A state with every component at distance 0.01 from baseline. -/
def settledDemoState : BlenderState :=
  { baseline := fun _ => 1/2
    current := fun _ => 51/100
    hold_until := 0
    last_baseline_update := 0
    dwell_until := 0 }

/-- A state with one component at distance 0.021 from baseline. -/
def almostSettledState : BlenderState :=
  { baseline := fun _ => 1/2
    current := ![521/1000, 1/2, 1/2, 1/2, 1/2]
    hold_until := 0
    last_baseline_update := 0
    dwell_until := 0 }

/-- C8: the state is declared settled iff `|current[i] - baseline[i]|` is
strictly below the 0.02 threshold for every one of the five dimensions; all
dimensions within 0.02 of baseline gives settled, a single dimension at
distance 0.021 gives not settled. -/
theorem C8_settle_detection :
    (∀ (s : BlenderState) (threshold : ℚ),
        hasSettledToBaseline s threshold ↔ ∀ i, |s.current i - s.baseline i| < threshold)
    ∧ hasSettledToBaseline settledDemoState (2/100)
    ∧ ¬ hasSettledToBaseline almostSettledState (2/100) := by
  refine ⟨fun s threshold => Iff.rfl, ?_, ?_⟩
  · intro i
    show |(51/100 : ℚ) - 1/2| < 2/100
    rw [show (51/100 : ℚ) - 1/2 = 1/100 by norm_num, abs_of_nonneg (by norm_num)]
    norm_num
  · intro h
    have h0 := h 0
    rw [show almostSettledState.current 0 - almostSettledState.baseline 0 = 21/1000 by
      norm_num [almostSettledState, Matrix.cons_val_zero]] at h0
    rw [abs_of_nonneg (by norm_num)] at h0
    norm_num at h0

/-! ## Slow-dispatch coordination (src/vibe_eyes/server.py, `decay_loop`) -/

/-- The coordination flags of the server, plus a ghost counter of
simultaneously outstanding slow-estimator requests.  In `decay_loop`
(lines 140–148), the check of `_slow_pending`, `_slow_in_flight` and the
settle test, followed by `_slow_in_flight = True`, contains no `await`
point, so under asyncio's cooperative scheduling it executes atomically. -/
structure CoordState where
  pending : Bool
  inFlight : Bool
  outstanding : ℕ
deriving DecidableEq

/-- An atomic scheduling event of the server:
* `evalTick settled hasContext` — one dispatch evaluation of `decay_loop`
  (the settle test's outcome and the non-emptiness of the context window are
  passed in as observations);
* `finish` — the `finally` block of `_trigger_slow_baseline`, which runs when
  the dispatched request completes (success or failure) and clears both flags;
* `transcript` — the `/transcript` endpoint setting `_slow_pending = True`. -/
inductive CoordEvent where
  | evalTick (settled : Bool) (hasContext : Bool)
  | finish
  | transcript

/-- The dispatch guard of `decay_loop`:
`_slow_pending and not _slow_in_flight and _has_settled_to_baseline()`
followed by the `if context_text` check. -/
def dispatchCond (s : CoordState) (settled hasContext : Bool) : Bool :=
  s.pending && !s.inFlight && settled && hasContext

/-- One atomic step of the coordination state machine. -/
def coordStep (e : CoordEvent) (s : CoordState) : CoordState :=
  match e with
  | .evalTick settled hasContext =>
      if dispatchCond s settled hasContext
      then { s with inFlight := true, outstanding := s.outstanding + 1 }
      else s
  | .finish =>
      if s.outstanding = 0 then s
      else { pending := false, inFlight := false, outstanding := s.outstanding - 1 }
  | .transcript => { s with pending := true }

/-- Server start: no pending request, nothing in flight. -/
def initCoord : CoordState :=
  { pending := false, inFlight := false, outstanding := 0 }

/-- Run a sequence of events from server start. -/
def coordRun (evs : List CoordEvent) : CoordState :=
  evs.foldl (fun s e => coordStep e s) initCoord

lemma coordStep_inv (e : CoordEvent) (s : CoordState)
    (h : s.outstanding = if s.inFlight then 1 else 0) :
    (coordStep e s).outstanding = if (coordStep e s).inFlight then 1 else 0 := by
  rcases s with ⟨p, f, o⟩
  cases e with
  | evalTick settled hasContext =>
      cases p <;> cases f <;> cases settled <;> cases hasContext <;>
        simp_all [coordStep, dispatchCond]
  | finish =>
      cases f <;> simp_all [coordStep]
  | transcript =>
      simpa [coordStep] using h

lemma coordRun_inv (evs : List CoordEvent) :
    (coordRun evs).outstanding = if (coordRun evs).inFlight then 1 else 0 := by
  induction evs using List.reverseRecOn with
  | nil => rfl
  | append_singleton evs e ih =>
      unfold coordRun at ih ⊢
      rw [List.foldl_append, List.foldl_cons, List.foldl_nil]
      exact coordStep_inv e _ ih

/-- C5: in every state reachable from server start, at most one
slow-estimator request is outstanding (the request count equals 1 exactly
when the in-flight flag is set), and a dispatch-evaluation event dispatches
(marking in-flight and incrementing the outstanding count in the same atomic
step) exactly when the pending flag is set, no request is in flight, the
state is settled, and the context window is non-empty — otherwise it leaves
the state untouched.  Hence two consecutive dispatch-triggering evaluations
before the first request resolves never produce two outstanding requests. -/
theorem C5_single_flight :
    (∀ evs : List CoordEvent,
        (coordRun evs).outstanding ≤ 1
        ∧ (coordRun evs).outstanding = if (coordRun evs).inFlight then 1 else 0)
    ∧ (∀ (s : CoordState) (settled hasContext : Bool),
        coordStep (.evalTick settled hasContext) s
          = if s.pending = true ∧ s.inFlight = false ∧ settled = true ∧ hasContext = true
            then { s with inFlight := true, outstanding := s.outstanding + 1 }
            else s) := by
  constructor
  · intro evs
    have h := coordRun_inv evs
    refine ⟨?_, h⟩
    rw [h]
    split <;> norm_num
  · intro s settled hasContext
    rcases s with ⟨p, f, o⟩
    cases p <;> cases f <;> cases settled <;> cases hasContext <;>
      simp [coordStep, dispatchCond]

/-! ## Slow baseline trigger and validation
(src/vibe_eyes/server.py `_trigger_slow_baseline`,
 src/vibe_eyes/ollama_anchor.py `OllamaAnchor.extract_baseline`) -/

/-- The server state touched by `_trigger_slow_baseline`: the blender plus
the two coordination flags. -/
structure SlowState where
  blender : BlenderState
  pending : Bool
  inFlight : Bool
deriving DecidableEq

/-- `_trigger_slow_baseline` (`server.py` lines 153–185), after the awaited
request has produced `result` (`none` models an exception, an unavailable
estimator, or a malformed response — all of which make
`_update_baseline_async` return `None`): on `some v` the correction is
applied via `apply_baseline`; on `none` the blender is untouched; the
`finally` block clears both flags in every case. -/
def triggerSlowBaseline (now : ℚ) (result : Option Vec5) (s : SlowState) :
    SlowState :=
  let blender' := match result with
    | some v => apply_baseline now v s.blender
    | none => s.blender
  { blender := blender', pending := false, inFlight := false }

/-- The validation step of `OllamaAnchor.extract_baseline`
(`ollama_anchor.py` lines 98–113), applied to the numbers the defensive
regex extracted from the model output: keep the first five, succeed iff
there are five of them, all within `[0,1]`; otherwise return `None`. -/
def validateBaseline (numbers : List ℚ) : Option (List ℚ) :=
  let baseline := numbers.take 5
  if baseline.length = 5 ∧ ∀ v ∈ baseline, 0 ≤ v ∧ v ≤ 1 then some baseline
  else none

/-- C9: when the slow-estimator call fails or its result is malformed (fewer
than five extracted numbers, or an out-of-range value among the first five),
no baseline correction is applied — the blender is left exactly as it was —
and on completion, success or failure alike, both the pending and in-flight
flags are cleared so a future transcript can re-trigger a request. -/
theorem C9_slow_error_handling :
    (∀ (now : ℚ) (s : SlowState),
        triggerSlowBaseline now none s
          = { blender := s.blender, pending := false, inFlight := false })
    ∧ (∀ (now : ℚ) (result : Option Vec5) (s : SlowState),
        (triggerSlowBaseline now result s).pending = false
        ∧ (triggerSlowBaseline now result s).inFlight = false)
    ∧ (∀ numbers : List ℚ,
        ((numbers.take 5).length ≠ 5 ∨ ∃ v ∈ numbers.take 5, v < 0 ∨ 1 < v) →
        validateBaseline numbers = none) := by
  refine ⟨fun now s => rfl, fun now result s => ⟨rfl, rfl⟩, ?_⟩
  intro numbers hbad
  unfold validateBaseline
  rw [if_neg ?_]
  intro ⟨hlen, hrange⟩
  rcases hbad with hlen5 | ⟨v, hv, hout⟩
  · exact hlen5 hlen
  · rcases hout with hlt | hgt
    · exact absurd (hrange v hv).1 (not_le.mpr hlt)
    · exact absurd (hrange v hv).2 (not_le.mpr hgt)

/-- Witness for C9: a response from which only one number could be extracted
is rejected. -/
theorem C9_slow_error_handling_witness :
    ((([ (2:ℚ) ]).take 5).length ≠ 5 ∨ ∃ v ∈ ([ (2:ℚ) ]).take 5, v < 0 ∨ 1 < v)
    ∧ validateBaseline [(2:ℚ)] = none := by
  have hbad : ((([ (2:ℚ) ]).take 5).length ≠ 5 ∨ ∃ v ∈ ([ (2:ℚ) ]).take 5, v < 0 ∨ 1 < v) :=
    Or.inl (by norm_num)
  exact ⟨hbad, C9_slow_error_handling.2.2 [(2:ℚ)] hbad⟩

/-! ## CinematicAmplifier: radial amplification
(src/vibe_eyes/amplifier.py, `amplify_passion` / `_radial_amplify`) -/

/-- `CinematicAmplifier.MAX_PASSION = 3.5`. -/
def MAX_PASSION : ℚ := 7/2

/-- `CinematicAmplifier._radial_amplify` (`amplifier.py` lines 139–158): only
the first three dimensions (V, A, D) are moved; for those,
`delta = value - 0.5`, `gain = 1 + passion * |delta|`,
`new value = 0.5 + delta * gain`. -/
def radial_amplify (values : Vec5) (passion : ℚ) : Vec5 :=
  fun i =>
    if (i : ℕ) < 3 then
      1/2 + (values i - 1/2) * (1 + passion * |values i - 1/2|)
    else values i

/-- `CinematicAmplifier.amplify_passion` (`amplifier.py` lines 72–83):
clamps passion to `[0, MAX_PASSION]`, radially amplifies, then clips every
dimension of the result to `[0,1]`. -/
def amplify_passion (values : Vec5) (passion : ℚ) : Vec5 :=
  clipVec (radial_amplify values (max 0 (min MAX_PASSION passion)))

/-- C6 counterexample: the final `np.clip` hits ALL five dimensions, so for
an out-of-range input the Complexity dimension is NOT left equal to the
input: `amplify_passion([0.5,0.5,0.5,2,0.5], 1)[3] = 1 ≠ 2`. -/
theorem C6_counterexample :
    amplify_passion ![1/2, 1/2, 1/2, 2, 1/2] 1 3 = 1
    ∧ amplify_passion ![1/2, 1/2, 1/2, 2, 1/2] 1 3 ≠ (![1/2, 1/2, 1/2, 2, 1/2] : Vec5) 3 := by
  have hval : amplify_passion ![1/2, 1/2, 1/2, 2, 1/2] 1 3 = 1 := by
    show clip01 (radial_amplify ![1/2, 1/2, 1/2, 2, 1/2] (max 0 (min MAX_PASSION 1)) 3) = 1
    have h3 : radial_amplify ![1/2, 1/2, 1/2, 2, 1/2] (max 0 (min MAX_PASSION 1)) 3 = 2 := by
      unfold radial_amplify
      rw [if_neg (by decide)]
      norm_num [Matrix.cons_val_fin_one]
    rw [h3]
    norm_num [clip01]
  refine ⟨hval, ?_⟩
  rw [hval]
  norm_num [Matrix.cons_val_fin_one]

/-- C6 (amended): for passion `p ≥ 0`, `amplify_passion` leaves the
Complexity and Coherence dimensions equal to the input PROVIDED they lie in
`[0,1]` (the final clip applies to every dimension), always returns a result
in `[0,1]^5`, maps each of the first three dimensions to
`clip(0.5 + delta*(1 + p'*|delta|))` with `delta = v[i] - 0.5` and
`p' = min(p, 3.5)` (the pre-clip value being `0.5 + delta*(1 + p'*|delta|)`),
and keeps a V/A/D dimension equal to 0.5 fixed at 0.5. -/
theorem C6_amplify_passion :
    ∀ (v : Vec5) (p : ℚ), 0 ≤ p →
      ((0 ≤ v 3 → v 3 ≤ 1 → amplify_passion v p 3 = v 3)
        ∧ (0 ≤ v 4 → v 4 ≤ 1 → amplify_passion v p 4 = v 4))
      ∧ InUnit (amplify_passion v p)
      ∧ (∀ i : Fin 5, (i : ℕ) < 3 →
          radial_amplify v (min MAX_PASSION p) i
              = 1/2 + (v i - 1/2) * (1 + min MAX_PASSION p * |v i - 1/2|)
          ∧ amplify_passion v p i
              = clip01 (1/2 + (v i - 1/2) * (1 + min MAX_PASSION p * |v i - 1/2|)))
      ∧ (∀ i : Fin 5, (i : ℕ) < 3 → v i = 1/2 → amplify_passion v p i = 1/2) := by
  intro v p hp
  have hclamp : max 0 (min MAX_PASSION p) = min MAX_PASSION p :=
    max_eq_right (le_min (by norm_num [MAX_PASSION]) hp)
  refine ⟨⟨?_, ?_⟩, clipVec_inUnit _, ?_, ?_⟩
  · intro h0 h1
    show clip01 (radial_amplify v (max 0 (min MAX_PASSION p)) 3) = v 3
    have h3 : radial_amplify v (max 0 (min MAX_PASSION p)) 3 = v 3 := by
      unfold radial_amplify
      rw [if_neg (by decide)]
    rw [h3]
    exact clip01_eq_self h0 h1
  · intro h0 h1
    show clip01 (radial_amplify v (max 0 (min MAX_PASSION p)) 4) = v 4
    have h4 : radial_amplify v (max 0 (min MAX_PASSION p)) 4 = v 4 := by
      unfold radial_amplify
      rw [if_neg (by decide)]
    rw [h4]
    exact clip01_eq_self h0 h1
  · intro i hi
    constructor
    · unfold radial_amplify
      rw [if_pos hi]
    · show clip01 (radial_amplify v (max 0 (min MAX_PASSION p)) i) = _
      rw [hclamp]
      unfold radial_amplify
      rw [if_pos hi]
  · intro i hi hv
    show clip01 (radial_amplify v (max 0 (min MAX_PASSION p)) i) = 1/2
    unfold radial_amplify
    rw [if_pos hi, hv]
    norm_num [clip01]

/-- Witness for C6: at passion 2 on a concrete in-range vector, the output is
inside the unit box, the Complexity dimension passes through, the V
dimension follows the clipped radial-gain formula, and the neutral D
dimension stays at 0.5. -/
theorem C6_amplify_passion_witness :
    (0:ℚ) ≤ 2
    ∧ InUnit (amplify_passion ![3/4, 1/4, 1/2, 1/2, 8/10] 2)
    ∧ amplify_passion ![3/4, 1/4, 1/2, 1/2, 8/10] 2 3 = 1/2
    ∧ amplify_passion ![3/4, 1/4, 1/2, 1/2, 8/10] 2 0
        = clip01 (1/2 + ((![3/4, 1/4, 1/2, 1/2, 8/10] : Vec5) 0 - 1/2)
            * (1 + min MAX_PASSION 2 * |(![3/4, 1/4, 1/2, 1/2, 8/10] : Vec5) 0 - 1/2|))
    ∧ amplify_passion ![3/4, 1/4, 1/2, 1/2, 8/10] 2 2 = 1/2 := by
  have h := C6_amplify_passion ![3/4, 1/4, 1/2, 1/2, 8/10] 2 (by norm_num)
  refine ⟨by norm_num, h.2.1,
    h.1.1 (by norm_num [Matrix.cons_val_fin_one]) (by norm_num [Matrix.cons_val_fin_one]),
    (h.2.2.1 0 (by decide)).2, ?_⟩
  exact h.2.2.2 2 (by decide) (by norm_num [Matrix.cons_val_fin_one])

/-! ## CinematicAmplifier: cinematic snap
(src/vibe_eyes/amplifier.py, `snap_drama` / `_nearest_exemplar`)

The exemplar set `cinematic_space` is loaded from a dataset at runtime, so
every definition is parametrised by the exemplar list `exs`.  Distances are
`np.linalg.norm` of the weighted difference, i.e. real square roots; the
square of the distance is rational, and since the square root is monotone,
the `np.argsort` order coincides with the order of the squared distances.
We model `np.argsort` (applied here only through its leading `k` entries)
with a stable merge sort on the squared distances, which agrees with it up
to the order of exact ties. -/

/-- `CinematicAmplifier.dimension_weights = [3.0, 3.0, 1.2, 0.3, 0.3]`. -/
def dimension_weights : Vec5 := ![3, 3, 12/10, 3/10, 3/10]

/-- Squared weighted distance: the square of
`np.linalg.norm((e - v) * dimension_weights)`. -/
def wdistSq (v e : Vec5) : ℚ := ∑ i, ((e i - v i) * dimension_weights i)^2

/-- The weighted Euclidean distance itself
(`amplifier.py` lines 165–166). -/
noncomputable def wdist (v e : Vec5) : ℝ := Real.sqrt ((wdistSq v e : ℚ) : ℝ)

/-- The exemplars, ordered by distance from `v` (the order `np.argsort`
computes in `_nearest_exemplar`). -/
def sortedByDistance (exs : List Vec5) (v : Vec5) : List Vec5 :=
  exs.mergeSort (fun a b => decide (wdistSq v a ≤ wdistSq v b))

/-- The inverse-distance weight `1.0 / (distance + 0.01)` of
`amplifier.py` line 173. -/
noncomputable def invDistWeight (v e : Vec5) : ℝ := 1 / (wdist v e + 1/100)

/-- The sum the source divides by when it normalises the inverse-distance
weights of the `k` nearest exemplars (`weights.sum()`). -/
noncomputable def totalWeight (exs : List Vec5) (v : Vec5) (k : ℕ) : ℝ :=
  (((sortedByDistance exs v).take k).map (fun e => invDistWeight v e)).sum

/-- `CinematicAmplifier._nearest_exemplar` (`amplifier.py` lines 163–180):
for `k = 1` the first exemplar in argsort order; otherwise the `np.average`
of the `k` nearest under the inverse-distance weights, which the source
normalises to sum to 1 before averaging (`weights /= weights.sum()`;
`np.average(xs, weights=w)` is `(w*xs).sum() / w.sum()`). -/
noncomputable def nearest_exemplar (exs : List Vec5) (v : Vec5) (k : ℕ) :
    Fin 5 → ℝ :=
  if k = 1 then fun i => (((sortedByDistance exs v).headD v) i : ℝ)
  else fun i =>
    (((sortedByDistance exs v).take k).map
        (fun e => invDistWeight v e / totalWeight exs v k * (e i : ℝ))).sum
      / (((sortedByDistance exs v).take k).map
          (fun e => invDistWeight v e / totalWeight exs v k)).sum

/-- `np.clip(x, 0, 1)` over the reals. -/
noncomputable def clip01R (x : ℝ) : ℝ := min (max x 0) 1

/-- `CinematicAmplifier.snap_drama` (`amplifier.py` lines 85–103): clamp
drama to `[0,1]`; at `drama ≤ 0` return the input unchanged; otherwise move
`drama` of the way toward the nearest-exemplar target and clip to `[0,1]`. -/
noncomputable def snap_drama (exs : List Vec5) (values : Vec5) (drama : ℚ)
    (k : ℕ) : Fin 5 → ℝ :=
  if max 0 (min 1 drama) ≤ 0 then fun i => ((values i : ℚ) : ℝ)
  else fun i =>
    clip01R (((values i : ℚ) : ℝ)
      + ((max 0 (min 1 drama) : ℚ) : ℝ)
        * (nearest_exemplar exs values k i - ((values i : ℚ) : ℝ)))

lemma wdistSq_nonneg (v e : Vec5) : 0 ≤ wdistSq v e :=
  Finset.sum_nonneg fun _ _ => sq_nonneg _

lemma wdist_le_wdist {v e f : Vec5} (h : wdistSq v e ≤ wdistSq v f) :
    wdist v e ≤ wdist v f :=
  Real.sqrt_le_sqrt (by exact_mod_cast h)

lemma sortedByDistance_perm (exs : List Vec5) (v : Vec5) :
    (sortedByDistance exs v).Perm exs :=
  List.mergeSort_perm exs _

lemma sortedByDistance_pairwise (exs : List Vec5) (v : Vec5) :
    (sortedByDistance exs v).Pairwise
      (fun a b => decide (wdistSq v a ≤ wdistSq v b) = true) :=
  @List.sorted_mergeSort Vec5
    (fun a b => decide (wdistSq v a ≤ wdistSq v b))
    (fun a b c hab hbc => by
      simp only [decide_eq_true_eq] at hab hbc ⊢
      exact le_trans hab hbc)
    (fun a b => by
      simp only [Bool.or_eq_true, decide_eq_true_eq]
      exact le_total _ _)
    exs

lemma sortedByDistance_ne_nil {exs : List Vec5} (v : Vec5) (hne : exs ≠ []) :
    sortedByDistance exs v ≠ [] := by
  intro hs
  have hperm := sortedByDistance_perm exs v
  rw [hs] at hperm
  exact hne hperm.symm.eq_nil

/-- C7: `snap_drama`, with drama clamped to `[0,1]`: for drama ≤ 0 it returns
the input vector unchanged for any `k`; for positive drama it returns
`clip(input + d*(target - input), 0, 1)` with `d = min(1, drama)`, where the
target for `k = 1` is an exemplar of minimal weighted Euclidean distance
(weights `(3, 3, 1.2, 0.3, 0.3)`), and for `k ≠ 1` is the average of the `k`
nearest exemplars weighted by `1/(distance + 0.01)` — the normalisation of
the weights to sum to 1 performed by the source leaves exactly the
inverse-distance-weighted average `Σ w·x / Σ w`. -/
theorem C7_snap_semantics :
    (∀ (exs : List Vec5) (v : Vec5) (drama : ℚ) (k : ℕ), drama ≤ 0 →
        snap_drama exs v drama k = fun i => ((v i : ℚ) : ℝ))
    ∧ (∀ (exs : List Vec5) (v : Vec5) (drama : ℚ) (k : ℕ), 0 < drama →
        snap_drama exs v drama k
          = fun i => clip01R (((v i : ℚ) : ℝ)
              + ((min 1 drama : ℚ) : ℝ)
                * (nearest_exemplar exs v k i - ((v i : ℚ) : ℝ))))
    ∧ (∀ (exs : List Vec5) (v : Vec5), exs ≠ [] →
        ∃ e ∈ exs, nearest_exemplar exs v 1 = (fun i => ((e i : ℚ) : ℝ))
          ∧ ∀ f ∈ exs, wdist v e ≤ wdist v f)
    ∧ (∀ (exs : List Vec5) (v : Vec5) (k : ℕ), k ≠ 1 →
        nearest_exemplar exs v k
          = fun i =>
              (((sortedByDistance exs v).take k).map
                  (fun e => invDistWeight v e * (e i : ℝ))).sum
                / (((sortedByDistance exs v).take k).map
                    (fun e => invDistWeight v e)).sum) := by
  refine ⟨?_, ?_, ?_, ?_⟩
  · intro exs v drama k hd
    unfold snap_drama
    rw [if_pos (max_le le_rfl (le_trans (min_le_right _ _) hd))]
  · intro exs v drama k hd
    have hmin : 0 < min 1 drama := lt_min one_pos hd
    unfold snap_drama
    rw [max_eq_right hmin.le, if_neg (not_le.mpr hmin)]
  · intro exs v hne
    obtain ⟨e, tl, hs⟩ := List.exists_cons_of_ne_nil (sortedByDistance_ne_nil v hne)
    refine ⟨e, ?_, ?_, ?_⟩
    · exact (sortedByDistance_perm exs v).mem_iff.mp (by rw [hs]; exact List.mem_cons_self e tl)
    · unfold nearest_exemplar
      rw [if_pos rfl, hs]
      rfl
    · intro f hf
      have hf' : f ∈ sortedByDistance exs v :=
        (sortedByDistance_perm exs v).mem_iff.mpr hf
      rw [hs] at hf'
      rcases List.mem_cons.mp hf' with rfl | htl
      · exact le_rfl
      · have hpw := sortedByDistance_pairwise exs v
        rw [hs] at hpw
        have := (List.pairwise_cons.mp hpw).1 f htl
        exact wdist_le_wdist (by simpa using this)
  · intro exs v k hk
    unfold nearest_exemplar
    rw [if_neg hk]
    funext i
    set near := (sortedByDistance exs v).take k with hnear
    have hT : totalWeight exs v k = (near.map (fun e => invDistWeight v e)).sum := rfl
    set T : ℝ := (near.map (fun e => invDistWeight v e)).sum with hTdef
    have hnum : (near.map (fun e => invDistWeight v e / T * (e i : ℝ))).sum
        = T⁻¹ * (near.map (fun e => invDistWeight v e * (e i : ℝ))).sum := by
      rw [← List.sum_map_mul_left]
      congr 1
      apply List.map_congr_left
      intro e _
      ring
    have hden : (near.map (fun e => invDistWeight v e / T)).sum
        = T⁻¹ * T := by
      nth_rewrite 2 [hTdef]
      rw [← List.sum_map_mul_left]
      congr 1
      apply List.map_congr_left
      intro e _
      ring
    rw [hT, hnum, hden]
    rcases eq_or_ne T 0 with h0 | h0
    · rw [h0]
      simp
    · rw [inv_mul_cancel₀ h0, div_one, inv_mul_eq_div]

/-- A concrete exemplar for witnesses: the origin. -/
def zeroEx : Vec5 := fun _ => 0

/-- A concrete input vector for witnesses: all ones. -/
def oneVec : Vec5 := fun _ => 1

/-- Witness for C7: all four parts applied at concrete inputs — drama 0 is
the identity, drama 1 gives the clipped interpolation, a singleton exemplar
list has that exemplar as the k = 1 target and minimiser, and k = 2 takes
the inverse-distance-weighted average form. -/
theorem C7_snap_semantics_witness :
    ((0:ℚ) ≤ 0
      ∧ snap_drama [zeroEx] oneVec 0 1 = fun i => ((oneVec i : ℚ) : ℝ))
    ∧ ((0:ℚ) < 1
      ∧ snap_drama [zeroEx] oneVec 1 1
          = fun i => clip01R (((oneVec i : ℚ) : ℝ)
              + ((min 1 (1:ℚ) : ℚ) : ℝ)
                * (nearest_exemplar [zeroEx] oneVec 1 i - ((oneVec i : ℚ) : ℝ))))
    ∧ (([zeroEx] ≠ ([] : List Vec5))
      ∧ ∃ e ∈ [zeroEx], nearest_exemplar [zeroEx] oneVec 1 = (fun i => ((e i : ℚ) : ℝ))
          ∧ ∀ f ∈ [zeroEx], wdist oneVec e ≤ wdist oneVec f)
    ∧ ((2:ℕ) ≠ 1
      ∧ nearest_exemplar [zeroEx] oneVec 2
          = fun i =>
              (((sortedByDistance [zeroEx] oneVec).take 2).map
                  (fun e => invDistWeight oneVec e * (e i : ℝ))).sum
                / (((sortedByDistance [zeroEx] oneVec).take 2).map
                    (fun e => invDistWeight oneVec e)).sum) := by
  refine ⟨⟨le_rfl, C7_snap_semantics.1 [zeroEx] oneVec 0 1 le_rfl⟩,
    ⟨one_pos, C7_snap_semantics.2.1 [zeroEx] oneVec 1 1 one_pos⟩,
    ⟨List.cons_ne_nil _ _, C7_snap_semantics.2.2.1 [zeroEx] oneVec (List.cons_ne_nil _ _)⟩,
    ⟨by norm_num, C7_snap_semantics.2.2.2 [zeroEx] oneVec 2 (by norm_num)⟩⟩
